import Mathlib

/-!
Verification development for the recbook LINE-bot webhook (`src/api/index.py`).

The Python script is shallowly embedded over `List Char` (a Python `str` is a
sequence of code points) and `List Nat` (byte strings).  External effects — the
PIL image decode, the generative-model call, the LINE reply API — are opaque to
the program, so they enter the embedding as explicit inputs/outputs of the
modelled functions.  Braces that occur as text inside Lean string literals are
written with the escapes \x7b and \x7d.
-/

namespace Recbook

/-- Shorthand: the character list of a string literal. -/
def S (s : String) : List Char := s.data

/-- The backtick character. -/
def tick : Char := '\x60'

/-- Characters stripped by Python `str.strip()` (ASCII whitespace set). -/
def isPySpace (c : Char) : Bool :=
  c = ' ' || c = '\t' || c = '\n' || c = '\r' || c = '\x0b' || c = '\x0c'

/-- `startsWith p xs` holds when `p` is an initial segment of `xs`. -/
def startsWith : List Char → List Char → Bool
  | [], _ => true
  | _ :: _, [] => false
  | p :: ps, x :: xs => p = x && startsWith ps xs

/-- `hasOcc p xs`: the pattern `p` occurs as a contiguous substring of `xs`. -/
def hasOcc (p : List Char) : List Char → Bool
  | [] => startsWith p []
  | x :: rest => startsWith p (x :: rest) || hasOcc p rest

/-- Worker for `removeAll`: when `skip` is positive, we are inside a matched
occurrence and discard characters; at `skip = 0` we test for an occurrence at
the current position.  Structured this way the recursion is structural (one
character is consumed per step), so the function reduces definitionally. -/
def removeAllGo (p : List Char) : Nat → List Char → List Char
  | _, [] => []
  | Nat.succ skip, _ :: rest => removeAllGo p skip rest
  | 0, x :: rest =>
    if startsWith p (x :: rest) && decide (0 < p.length) then
      removeAllGo p (p.length - 1) rest
    else
      x :: removeAllGo p 0 rest

/-- Python `s.replace(p, "")` for a non-empty pattern `p`: scan left to right,
deleting each occurrence of `p` and resuming the scan after the deleted
occurrence (newly adjacent text is not rescanned), exactly as CPython's
`str.replace` does.  (`index.py` line 114 only ever replaces with the empty
string, so only the deleting form is modelled.) -/
def removeAll (p : List Char) (xs : List Char) : List Char :=
  removeAllGo p 0 xs

/-- Python `str.strip()`: drop leading and trailing whitespace. -/
def pyStrip (xs : List Char) : List Char :=
  (((xs.dropWhile isPySpace).reverse).dropWhile isPySpace).reverse

/-- `index.py` line 114:
`response.text.replace("```json", "").replace("```", "").strip()`. -/
def cleanup (raw : List Char) : List Char :=
  pyStrip (removeAll (S "```") (removeAll (S "```json") raw))

/-- Python values produced by `json.loads` / consumed by the renderer.
Only the shapes this program manipulates are represented: strings, dicts
(association lists in insertion order), lists, and booleans (the booleans
`True` appear literally in `bubble_json`). -/
inductive PyVal where
  | str : List Char → PyVal
  | obj : List (List Char × PyVal) → PyVal
  | arr : List PyVal → PyVal
  | bool : Bool → PyVal

/-- Lookup in a dict built from a JSON object: later duplicate keys overwrite
earlier ones, as in Python's `json.loads`. -/
def lookupLast (es : List (List Char × PyVal)) (k : List Char) : Option PyVal :=
  match es with
  | [] => none
  | (k', v) :: rest =>
    match lookupLast rest k with
    | some r => some r
    | none => if k' = k then some v else none

/-- JSON insignificant whitespace. -/
def jsonWs (c : Char) : Bool :=
  c = ' ' || c = '\t' || c = '\n' || c = '\r'

/-- Skip JSON whitespace. -/
def skipWs (xs : List Char) : List Char := xs.dropWhile jsonWs

/-- Parse the body of a JSON string literal (after the opening quote) up to the
closing quote.  Escape sequences are outside the modelled fragment and are
rejected. -/
def parseStrBody : List Char → Option (List Char × List Char)
  | [] => none
  | c :: rest =>
    if c = '"' then some ([], rest)
    else if c = '\\' then none
    else (parseStrBody rest).map (fun p => (c :: p.1, p.2))

mutual

/-- Recursive-descent JSON value (strings and objects), fuelled. -/
def parseVal : Nat → List Char → Option (PyVal × List Char)
  | 0, _ => none
  | Nat.succ fuel, xs =>
    match skipWs xs with
    | '"' :: rest =>
      match parseStrBody rest with
      | some (s, rest2) => some (PyVal.str s, rest2)
      | none => none
    | '\x7b' :: rest =>
      match skipWs rest with
      | '\x7d' :: rest2 => some (PyVal.obj [], rest2)
      | other =>
        match parseMembers fuel other with
        | some (es, rest2) => some (PyVal.obj es, rest2)
        | none => none
    | _ => none

/-- Recursive-descent JSON object members (`"key": value`, comma separated,
closed by a brace), fuelled. -/
def parseMembers : Nat → List Char → Option (List (List Char × PyVal) × List Char)
  | 0, _ => none
  | Nat.succ fuel, xs =>
    match skipWs xs with
    | '"' :: rest =>
      match parseStrBody rest with
      | some (k, rest2) =>
        match skipWs rest2 with
        | ':' :: rest3 =>
          match parseVal fuel rest3 with
          | some (v, rest4) =>
            match skipWs rest4 with
            | ',' :: rest5 =>
              match parseMembers fuel rest5 with
              | some (es, rest6) => some ((k, v) :: es, rest6)
              | none => none
            | '\x7d' :: rest5 => some ([(k, v)], rest5)
            | _ => none
          | none => none
        | _ => none
      | none => none
    | _ => none

end

/-- Model of Python `json.loads`, restricted to the JSON fragment this program
actually exchanges with the model: texts whose values are strings and objects
with string keys (no escape sequences, numbers, arrays, booleans or null —
such texts are modelled as a parse failure, i.e. a raised exception).
Trailing non-whitespace makes the parse fail, as in `json.loads`. -/
def json_loads (xs : List Char) : Option PyVal :=
  match parseVal (xs.length + 1) xs with
  | some (v, rest) => if skipWs rest = [] then some v else none
  | none => none

/-- The outcome of the external effects inside `analyze_book_image`'s `try`
block.  `decodeOk` is whether `Image.open(io.BytesIO(image_bytes))` succeeds on
the inbound bytes; `modelResponse` is the text of
`model.generate_content([prompt, image]).text`, or `none` when the model call
(or the `.text` access) raises.  The prompt itself — built from one of five
randomly chosen strategies — only affects what the opaque model returns, never
the control flow of the function, so it is absorbed into `modelResponse`. -/
structure AnalyzeInput where
  decodeOk : Bool
  modelResponse : Option (List Char)

/-- What `analyze_book_image` did: the value returned to the caller, whether
`logger.error(...)` ran (the `except` branch), and whether `json.loads` was
reached. -/
structure AnalyzeTrace where
  result : Option PyVal
  loggedError : Bool
  jsonParseAttempted : Bool

/-- `index.py` lines 37–121, `analyze_book_image`: decode the image, call the
model, clean the response text, require a `\x7b` character, parse as JSON and
return the parsed object; every exception anywhere in the `try` block is
caught, logged, and collapsed to the return value `None`. -/
def analyze_book_image (inp : AnalyzeInput) : AnalyzeTrace :=
  if inp.decodeOk = false then
    { result := none, loggedError := true, jsonParseAttempted := false }
  else
    match inp.modelResponse with
    | none => { result := none, loggedError := true, jsonParseAttempted := false }
    | some raw =>
      let response_text := cleanup raw
      if '\x7b' ∉ response_text then
        { result := none, loggedError := true, jsonParseAttempted := false }
      else
        match json_loads response_text with
        | none => { result := none, loggedError := true, jsonParseAttempted := true }
        | some v => { result := some v, loggedError := false, jsonParseAttempted := true }

/-! ## URL construction (`urllib.parse.quote` and the Amazon search URL) -/

/-- Bytes left unescaped by `urllib.parse.quote` with its default
`safe='/'`: ASCII letters, digits, `_.-~`, and `/`. -/
def isSafeByte (b : Nat) : Bool :=
  (65 ≤ b && b ≤ 90) || (97 ≤ b && b ≤ 122) || (48 ≤ b && b ≤ 57) ||
    b == 45 || b == 46 || b == 95 || b == 126 || b == 47

/-- Uppercase hex digit, as `urllib.parse.quote` emits. -/
def hexDigitChar (n : Nat) : Char :=
  if n < 10 then Char.ofNat (48 + n) else Char.ofNat (55 + n)

/-- Value of a hex digit character (`unquote` accepts both cases). -/
def hexCharVal (c : Char) : Option Nat :=
  if 48 ≤ c.toNat && c.toNat ≤ 57 then some (c.toNat - 48)
  else if 65 ≤ c.toNat && c.toNat ≤ 70 then some (c.toNat - 55)
  else if 97 ≤ c.toNat && c.toNat ≤ 102 then some (c.toNat - 87)
  else none

/-- Percent-encode one byte. -/
def quoteByte (b : Nat) : List Char :=
  if isSafeByte b then [Char.ofNat b]
  else ['%', hexDigitChar (b / 16), hexDigitChar (b % 16)]

/-- `urllib.parse.quote` on a byte string (Python applies it to the UTF-8
encoding of the argument). -/
def quote (bs : List Nat) : List Char :=
  (bs.map quoteByte).flatten

/-- The UTF-8 encoding of one code point. -/
def utf8Nat (n : Nat) : List Nat :=
  if n < 128 then [n]
  else if n < 2048 then [192 + n / 64, 128 + n % 64]
  else if n < 65536 then [224 + n / 4096, 128 + (n / 64) % 64, 128 + n % 64]
  else [240 + n / 262144, 128 + (n / 4096) % 64, 128 + (n / 64) % 64, 128 + n % 64]

/-- The UTF-8 encoding of a Python string. -/
def utf8Encode (s : List Char) : List Nat :=
  (s.map (fun c => utf8Nat c.toNat)).flatten

/-- Percent-decoding to bytes (the byte level of `urllib.parse.unquote`): each
`%` followed by two hex digits becomes one byte; anything else passes through.
(For the ASCII output of `quote`, the pass-through byte of a character is its
code point.) -/
def unquote_to_bytes : List Char → List Nat
  | [] => []
  | c :: c1 :: c2 :: rest2 =>
    if c = '%' then
      match hexCharVal c1, hexCharVal c2 with
      | some hi, some lo => (16 * hi + lo) :: unquote_to_bytes rest2
      | _, _ => c.toNat :: unquote_to_bytes (c1 :: c2 :: rest2)
    else c.toNat :: unquote_to_bytes (c1 :: c2 :: rest2)
  | c :: rest => c.toNat :: unquote_to_bytes rest

/-- The default affiliate tag (`os.getenv("AMAZON_ASSOCIATE_TAG", "dummy-tag-22")`). -/
def AMAZON_ASSOCIATE_TAG_default : List Char := S "dummy-tag-22"

/-- `index.py` lines 125–126: the local `amazon_url` of `create_flex_message`,
`f"https://www.amazon.co.jp/s?k=\x7bquery\x7d&tag=\x7bAMAZON_ASSOCIATE_TAG\x7d"`
with `query = urllib.parse.quote(data['search_keyword'])`. -/
def amazon_url_of (search_keyword : List Char) (tag : List Char) : List Char :=
  S "https://www.amazon.co.jp/s?k=" ++ quote (utf8Encode search_keyword) ++
    S "&tag=" ++ tag

/-! ## The Flex message renderer -/

/-- Errors a renderer invocation can raise: a dict lookup on a missing key
(`KeyError`), or passing a non-string where the runtime requires a string
(`TypeError`, e.g. `urllib.parse.quote` on a dict). -/
inductive PyErr where
  | keyError : List Char → PyErr
  | typeError : PyErr

/-- Python `data[k]` on a dict: the value, or `KeyError` / `TypeError`. -/
def dictGet (d : PyVal) (k : List Char) : Except PyErr PyVal :=
  match d with
  | PyVal.obj es =>
    match lookupLast es k with
    | some v => Except.ok v
    | none => Except.error (PyErr.keyError k)
  | _ => Except.error PyErr.typeError

/-- Require a Python string (where the runtime would raise `TypeError`
otherwise, as `urllib.parse.quote` does on non-string input). -/
def asStr : PyVal → Except PyErr (List Char)
  | PyVal.str s => Except.ok s
  | _ => Except.error PyErr.typeError

/-- Python `str(v)` as used in the f-strings of `create_flex_message`.  The
program only ever reaches this with string values (the model is asked for
string fields); the non-string cases are given a fixed rendering because no
claim depends on Python's `repr` of those values. -/
def pyStr : PyVal → List Char
  | PyVal.str s => s
  | _ => []

/-- The `FlexSendMessage(alt_text=..., contents=...)` value. -/
structure FlexSendMessage where
  alt_text : List Char
  contents : PyVal

/-- `index.py` lines 129–168: the `bubble_json` dict literal, with the three
data-dependent slots (`data['title']`, `data['catchphrase']`,
`data['description']`) and the two `amazon_url` occurrences as parameters. -/
def bubble_json (title catchphrase description : PyVal) (amazon_url : List Char) : PyVal :=
  PyVal.obj [
    (S "type", PyVal.str (S "bubble")),
    (S "header", PyVal.obj [
      (S "type", PyVal.str (S "box")),
      (S "layout", PyVal.str (S "vertical")),
      (S "contents", PyVal.arr [
        PyVal.obj [(S "type", PyVal.str (S "text")), (S "text", PyVal.str (S "THE SOLUTION")),
          (S "weight", PyVal.str (S "bold")), (S "color", PyVal.str (S "#FFFFFF")),
          (S "size", PyVal.str (S "xxs")), (S "align", PyVal.str (S "center")),
          (S "letterSpacing", PyVal.str (S "2px"))],
        PyVal.obj [(S "type", PyVal.str (S "text")), (S "text", PyVal.str (S "現状打破の1冊")),
          (S "weight", PyVal.str (S "bold")), (S "color", PyVal.str (S "#FFFFFF")),
          (S "size", PyVal.str (S "sm")), (S "align", PyVal.str (S "center")),
          (S "margin", PyVal.str (S "xs"))]
      ]),
      (S "backgroundColor", PyVal.str (S "#1A237E"))
    ]),
    (S "hero", PyVal.obj [
      (S "type", PyVal.str (S "image")),
      (S "url", PyVal.str (S "https://cdn-icons-png.flaticon.com/512/3389/3389081.png")),
      (S "size", PyVal.str (S "xs")),
      (S "aspectRatio", PyVal.str (S "1:1")),
      (S "aspectMode", PyVal.str (S "cover")),
      (S "action", PyVal.obj [(S "type", PyVal.str (S "uri")), (S "uri", PyVal.str amazon_url)]),
      (S "margin", PyVal.str (S "md"))
    ]),
    (S "body", PyVal.obj [
      (S "type", PyVal.str (S "box")),
      (S "layout", PyVal.str (S "vertical")),
      (S "contents", PyVal.arr [
        PyVal.obj [(S "type", PyVal.str (S "text")), (S "text", title),
          (S "weight", PyVal.str (S "bold")), (S "size", PyVal.str (S "lg")),
          (S "wrap", PyVal.bool true), (S "align", PyVal.str (S "center")),
          (S "color", PyVal.str (S "#1A237E"))],
        PyVal.obj [(S "type", PyVal.str (S "separator")), (S "margin", PyVal.str (S "lg")),
          (S "color", PyVal.str (S "#EEEEEE"))],
        PyVal.obj [(S "type", PyVal.str (S "text")),
          (S "text", PyVal.str (S "“ " ++ pyStr catchphrase ++ S " ”")),
          (S "weight", PyVal.str (S "bold")), (S "size", PyVal.str (S "md")),
          (S "color", PyVal.str (S "#333333")), (S "wrap", PyVal.bool true),
          (S "margin", PyVal.str (S "lg")), (S "align", PyVal.str (S "center")),
          (S "style", PyVal.str (S "italic"))],
        PyVal.obj [(S "type", PyVal.str (S "text")), (S "text", description),
          (S "size", PyVal.str (S "sm")), (S "color", PyVal.str (S "#555555")),
          (S "wrap", PyVal.bool true), (S "margin", PyVal.str (S "lg")),
          (S "lineSpacing", PyVal.str (S "6px"))]
      ])
    ]),
    (S "footer", PyVal.obj [
      (S "type", PyVal.str (S "box")),
      (S "layout", PyVal.str (S "vertical")),
      (S "spacing", PyVal.str (S "sm")),
      (S "contents", PyVal.arr [
        PyVal.obj [(S "type", PyVal.str (S "button")), (S "style", PyVal.str (S "primary")),
          (S "height", PyVal.str (S "sm")), (S "color", PyVal.str (S "#1A237E")),
          (S "action", PyVal.obj [(S "type", PyVal.str (S "uri")),
            (S "label", PyVal.str (S "答えを確認する ➤")), (S "uri", PyVal.str amazon_url)])],
        PyVal.obj [(S "type", PyVal.str (S "text")),
          (S "text", PyVal.str (S "※Amazon詳細ページへ移動します")),
          (S "size", PyVal.str (S "xxs")), (S "color", PyVal.str (S "#aaaaaa")),
          (S "align", PyVal.str (S "center")), (S "margin", PyVal.str (S "md"))]
      ])
    ])
  ]

/-- `index.py` lines 123–169, `create_flex_message`: percent-encode
`data['search_keyword']` into the Amazon search URL, fill the fixed
`bubble_json` template with `data['title']`, `data['catchphrase']` and
`data['description']`, and wrap it as a `FlexSendMessage` whose alt text is
`f"【提案】\x7bdata['title']\x7d"`.  Dict lookups are in source order (the
`search_keyword` lookup on line 125 runs first, then the template's lookups);
a missing key escapes as an uncaught `KeyError`. -/
def create_flex_message (data : PyVal) (tag : List Char) : Except PyErr FlexSendMessage :=
  match dictGet data (S "search_keyword") with
  | Except.error e => Except.error e
  | Except.ok kwv =>
    match asStr kwv with
    | Except.error e => Except.error e
    | Except.ok kw =>
      let amazon_url := amazon_url_of kw tag
      match dictGet data (S "title") with
      | Except.error e => Except.error e
      | Except.ok titlev =>
        match dictGet data (S "catchphrase") with
        | Except.error e => Except.error e
        | Except.ok cpv =>
          match dictGet data (S "description") with
          | Except.error e => Except.error e
          | Except.ok descv =>
            Except.ok { alt_text := S "【提案】" ++ pyStr titlev,
                        contents := bubble_json titlev cpv descv amazon_url }

/-! ## The event handlers and the webhook endpoint -/

/-- An outbound LINE message: `TextSendMessage` or `FlexSendMessage`. -/
inductive OutboundMessage where
  | textMsg : List Char → OutboundMessage
  | flexMsg : FlexSendMessage → OutboundMessage

/-- Python truthiness of a value (`if not book_data`). -/
def pyTruthy1 : PyVal → Bool
  | PyVal.str s => !s.isEmpty
  | PyVal.obj es => !es.isEmpty
  | PyVal.arr vs => !vs.isEmpty
  | PyVal.bool b => b

/-- Python truthiness of an optional value: `None` is falsy. -/
def pyTruthy : Option PyVal → Bool
  | none => false
  | some v => pyTruthy1 v

/-- The fixed reply of `handle_text_message` (line 184). -/
def instruction_text : List Char :=
  S "本の表紙を送ってください。\nその「課題」の正体を分析します。"

/-- The fixed failure reply of `handle_image_message` (line 193). -/
def failure_reply_text : List Char :=
  S "解析できませんでした。別の角度から撮影してください。"

/-- `index.py` lines 182–184, `handle_text_message`: reply with the fixed
instructional text; the event's message content is never read. -/
def handle_text_message (_eventText : List Char) : OutboundMessage :=
  OutboundMessage.textMsg instruction_text

/-- What `handle_image_message` did after `analyze_book_image` returned:
the reply it sends (or the uncaught renderer error), and whether
`create_flex_message` was invoked. -/
structure ImageHandlerTrace where
  reply : Except PyErr OutboundMessage
  rendererInvoked : Bool

/-- `index.py` lines 191–196: `if not book_data:` reply with the fixed failure
text and return; otherwise build and send the Flex message.  The guard is
Python truthiness, so both `None` and falsy values (an empty dict) take the
failure branch; the `none` case of the match and the falsy test on `some`
together implement exactly `not book_data`. -/
def handle_image_message (book_data : Option PyVal) (tag : List Char) : ImageHandlerTrace :=
  match book_data with
  | none =>
    { reply := Except.ok (OutboundMessage.textMsg failure_reply_text), rendererInvoked := false }
  | some d =>
    if pyTruthy1 d = false then
      { reply := Except.ok (OutboundMessage.textMsg failure_reply_text), rendererInvoked := false }
    else
      match create_flex_message d tag with
      | Except.ok f =>
        { reply := Except.ok (OutboundMessage.flexMsg f), rendererInvoked := true }
      | Except.error e =>
        { reply := Except.error e, rendererInvoked := true }

/-- `index.py` lines 186–196 end to end: fetch the image bytes, run
`analyze_book_image`, then branch on its result as `handle_image_message`
does. -/
def handle_image_full (inp : AnalyzeInput) (tag : List Char) : ImageHandlerTrace :=
  handle_image_message (analyze_book_image inp).result tag

/-- What the `callback` endpoint did: the HTTP response (`Except.error` is a
raised `HTTPException` with status and detail) and how many outbound
`reply_message` calls the dispatched handlers made. -/
structure CallbackTrace where
  response : Except (Nat × List Char) (List Char)
  outboundReplyCalls : Nat

/-- `index.py` lines 172–180, `callback`: `line_handler.handle` verifies the
`X-Line-Signature` header before dispatching any event handler; if
verification fails it raises `InvalidSignatureError`, which the endpoint turns
into `HTTPException(status_code=400, detail="Invalid signature")` — and no
handler (hence no outbound reply call) has run.  On success the dispatched
handlers run (making `dispatchReplyCalls` outbound calls) and the endpoint
returns `"OK"`. -/
def callback (signatureValid : Bool) (dispatchReplyCalls : Nat) : CallbackTrace :=
  if signatureValid then
    { response := Except.ok (S "OK"), outboundReplyCalls := dispatchReplyCalls }
  else
    { response := Except.error (400, S "Invalid signature"), outboundReplyCalls := 0 }

/-! ## Observing URLs and rendered documents

These definitions are not part of the program; they are the formalisation
vocabulary for reading a query parameter out of a URL and the purchase link
out of a rendered bubble, needed to state the purchase-URL claim. -/

/-- Split at the first occurrence of `c`: the part before and the part after. -/
def splitFirst (c : Char) : List Char → Option (List Char × List Char)
  | [] => none
  | x :: xs =>
    if x = c then some ([], xs)
    else (splitFirst c xs).map (fun p => (x :: p.1, p.2))

/-- Split on every occurrence of `c`. -/
def splitAll (c : Char) : List Char → List (List Char)
  | [] => [[]]
  | x :: xs =>
    if x = c then [] :: splitAll c xs
    else
      match splitAll c xs with
      | [] => [[x]]
      | p :: ps => (x :: p) :: ps

/-- First query parameter named `name` in a list of `key=value` chunks. -/
def findParam (name : List Char) : List (List Char) → Option (List Char)
  | [] => none
  | p :: ps =>
    match splitFirst '=' p with
    | some (k, v) => if k = name then some v else findParam name ps
    | none => findParam name ps

/-- The value of query parameter `name` of a URL: everything after the first
`?` is the query string, parameters are separated by `&`, and a parameter's
name is what stands before its first `=`. -/
def getParam (url : List Char) (name : List Char) : Option (List Char) :=
  match splitFirst '?' url with
  | none => none
  | some (_, query) => findParam name (splitAll '&' query)

/-- Dict lookup on a `PyVal`, `none` on a missing key or a non-dict. -/
def objLookup (v : PyVal) (k : List Char) : Option PyVal :=
  match v with
  | PyVal.obj es => lookupLast es k
  | _ => none

/-- The URI of the footer button of a rendered bubble
(`footer.contents[0].action.uri`) — the purchase link. -/
def footer_button_uri (bubble : PyVal) : Option (List Char) :=
  match objLookup bubble (S "footer") with
  | some f =>
    match objLookup f (S "contents") with
    | some (PyVal.arr (btn :: _)) =>
      match objLookup btn (S "action") with
      | some a =>
        match objLookup a (S "uri") with
        | some (PyVal.str u) => some u
        | _ => none
      | _ => none
    | _ => none
  | none => none

/-- Length of a UTF-8 code determined by its first byte. -/
def lenHead (b : Nat) : Nat :=
  if b < 128 then 1 else if b < 224 then 2 else if b < 240 then 3 else 4

/-- Number of leading backticks of a string. -/
def leadT : List Char → Nat
  | [] => 0
  | x :: rest => if x = tick then leadT rest + 1 else 0

/-! ## Concrete sample inputs used by witnesses -/

/-- The spec's mocked model output:
` ```json\n{"title":"T","author":"A","catchphrase":"C","description":"D","search_keyword":"T A"}\n``` `. -/
def sampleModelOutput : List Char :=
  S "```json\n\x7b\"title\":\"T\",\"author\":\"A\",\"catchphrase\":\"C\",\"description\":\"D\",\"search_keyword\":\"T A\"\x7d\n```"

/-- The AnalysisResult dict parsed from `sampleModelOutput`. -/
def sampleBookData : PyVal :=
  PyVal.obj [(S "title", PyVal.str (S "T")), (S "author", PyVal.str (S "A")),
    (S "catchphrase", PyVal.str (S "C")), (S "description", PyVal.str (S "D")),
    (S "search_keyword", PyVal.str (S "T A"))]

/-- `sampleBookData` with a different `author` (a field the renderer never
reads). -/
def sampleBookDataAuthorB : PyVal :=
  PyVal.obj [(S "title", PyVal.str (S "T")), (S "author", PyVal.str (S "B")),
    (S "catchphrase", PyVal.str (S "C")), (S "description", PyVal.str (S "D")),
    (S "search_keyword", PyVal.str (S "T A"))]

/-- Valid JSON missing the expected `title` and `search_keyword` fields. -/
def missingFieldJson : List Char := S "\x7b\"author\": \"A\"\x7d"

end Recbook

namespace Recbook

/-! ## Claim theorems -/

/-- C5: for every inbound webhook POST whose signature fails verification, the
endpoint responds with status 400 and the detail `"Invalid signature"`, and no
outbound reply API call occurs for that request (no handler was dispatched),
whatever the dispatched handlers would have replied. -/
theorem callback_invalid_signature (n : Nat) :
    callback false n =
      { response := Except.error (400, S "Invalid signature"), outboundReplyCalls := 0 } := rfl

/-- C6: for every inbound text message, regardless of its text content, the
reply is the fixed instructional string; two messages with different contents
get identical replies. -/
theorem handle_text_message_fixed (t : List Char) :
    handle_text_message t = OutboundMessage.textMsg instruction_text ∧
    ∀ t2, handle_text_message t = handle_text_message t2 :=
  ⟨rfl, fun _ => rfl⟩

/-- C4: whenever the image decodes and the model answers with text whose
cleaned form contains no `\x7b`, `analyze_book_image` returns the failure
sentinel with an error logged and without ever invoking `json.loads` (the
`raise Exception("Not JSON")` is caught inside the function). -/
theorem analyze_no_brace_skips_parse (inp : AnalyzeInput) (raw : List Char)
    (hdec : inp.decodeOk = true) (hresp : inp.modelResponse = some raw)
    (hbrace : '\x7b' ∉ cleanup raw) :
    analyze_book_image inp =
      { result := none, loggedError := true, jsonParseAttempted := false } := by
  unfold analyze_book_image
  rw [hdec, hresp]
  simp [hbrace]

/-- Witness for C4 at the spec's scenario input
`"I cannot identify this book."`. -/
theorem analyze_no_brace_skips_parse_witness :
    '\x7b' ∉ cleanup (S "I cannot identify this book.") ∧
    analyze_book_image ⟨true, some (S "I cannot identify this book.")⟩ =
      { result := none, loggedError := true, jsonParseAttempted := false } :=
  ⟨by decide, analyze_no_brace_skips_parse _ _ rfl rfl (by decide)⟩

/-- C2 counterexample: on model output that is valid JSON but lacks the
expected fields (`missingFieldJson` has only `author`), `analyze_book_image`
does NOT return the failure sentinel: it returns the parsed dict, `title` and
`search_keyword` missing and all.  This refutes the claim that a
successfully-parsed object with a missing expected field is treated as a total
failure of the analysis step. -/
theorem analyze_missing_field_returned :
    (analyze_book_image ⟨true, some missingFieldJson⟩).result =
      some (PyVal.obj [(S "author", PyVal.str (S "A"))]) ∧
    lookupLast [(S "author", PyVal.str (S "A"))] (S "title") = none ∧
    lookupLast [(S "author", PyVal.str (S "A"))] (S "search_keyword") = none ∧
    (analyze_book_image ⟨true, some missingFieldJson⟩).result ≠ none := by
  refine ⟨rfl, rfl, rfl, ?_⟩
  intro h
  have heval : (analyze_book_image ⟨true, some missingFieldJson⟩).result =
      some (PyVal.obj [(S "author", PyVal.str (S "A"))]) := rfl
  rw [heval] at h
  exact Option.noConfusion h

/-- C2 (amended): after cleanup, a JSON parse exception is a total failure of
the analysis step (sentinel `None`, error logged), but a successfully-parsed
JSON object is returned as-is even when expected AnalysisResult fields are
missing — the missing field is not detected here (it surfaces later as a
`KeyError` inside `create_flex_message`). -/
theorem analyze_parse_exception_vs_missing_field (raw : List Char) (v : PyVal)
    (hbrace : '\x7b' ∈ cleanup raw) :
    (json_loads (cleanup raw) = none →
      (analyze_book_image ⟨true, some raw⟩).result = none ∧
      (analyze_book_image ⟨true, some raw⟩).loggedError = true) ∧
    (json_loads (cleanup raw) = some v →
      (analyze_book_image ⟨true, some raw⟩).result = some v) := by
  unfold analyze_book_image
  constructor
  · intro h
    simp [hbrace, h]
  · intro h
    simp [hbrace, h]

/-- Witness for the amended C2: a parse failure (`\x7bbroken`) yields the
sentinel; the well-formed-but-incomplete `missingFieldJson` is returned
parsed. -/
theorem analyze_parse_exception_vs_missing_field_witness :
    ((analyze_book_image ⟨true, some (S "\x7bbroken")⟩).result = none ∧
      (analyze_book_image ⟨true, some (S "\x7bbroken")⟩).loggedError = true) ∧
    (analyze_book_image ⟨true, some missingFieldJson⟩).result =
      some (PyVal.obj [(S "author", PyVal.str (S "A"))]) :=
  ⟨(analyze_parse_exception_vs_missing_field (S "\x7bbroken") (PyVal.obj []) (by decide)).1 rfl,
   (analyze_parse_exception_vs_missing_field missingFieldJson
      (PyVal.obj [(S "author", PyVal.str (S "A"))]) (by decide)).2 rfl⟩

/-- C3: when `analyze_book_image` returns the failure sentinel `None`, the
image handler replies with exactly the fixed failure text and
`create_flex_message` is never invoked; conversely the renderer is only
reached on a non-`None` analysis result. -/
theorem image_handler_failure_fixed_reply (inp : AnalyzeInput) (tag : List Char) :
    ((analyze_book_image inp).result = none →
      handle_image_full inp tag =
        { reply := Except.ok (OutboundMessage.textMsg failure_reply_text),
          rendererInvoked := false }) ∧
    ((handle_image_full inp tag).rendererInvoked = true →
      (analyze_book_image inp).result ≠ none) := by
  constructor
  · intro h
    unfold handle_image_full handle_image_message
    rw [h]
  · intro h hnone
    unfold handle_image_full handle_image_message at h
    rw [hnone] at h
    simp at h

/-- Witness for C3: a decode failure produces the fixed failure reply with the
renderer never invoked; on the spec's successful sample the analysis result is
not the sentinel (and there the renderer does run). -/
theorem image_handler_failure_fixed_reply_witness :
    handle_image_full ⟨false, none⟩ AMAZON_ASSOCIATE_TAG_default =
      { reply := Except.ok (OutboundMessage.textMsg failure_reply_text),
        rendererInvoked := false } ∧
    (analyze_book_image ⟨true, some sampleModelOutput⟩).result ≠ none :=
  ⟨(image_handler_failure_fixed_reply ⟨false, none⟩ AMAZON_ASSOCIATE_TAG_default).1 rfl,
   (image_handler_failure_fixed_reply ⟨true, some sampleModelOutput⟩
      AMAZON_ASSOCIATE_TAG_default).2 rfl⟩

/-- The failure causes of `analyze_book_image`, read off its branches: image
decode error, model-call error, cleaned output without `\x7b`, JSON parse
error. -/
def analysisFails (inp : AnalyzeInput) : Bool :=
  !inp.decodeOk ||
    match inp.modelResponse with
    | none => true
    | some raw => !(decide ('\x7b' ∈ cleanup raw)) || (json_loads (cleanup raw)).isNone

/-- C8: every failure cause (decode error, model error, non-JSON format, parse
error) is collapsed into the single sentinel `None` with an error logged; the
caller sees the same result whatever the cause was (and the function returns
normally — in this embedding it is total — so no exception escapes). -/
theorem analyze_failures_collapse (inp inp2 : AnalyzeInput)
    (h : analysisFails inp = true) (h2 : analysisFails inp2 = true) :
    (analyze_book_image inp).result = none ∧
    (analyze_book_image inp).loggedError = true ∧
    (analyze_book_image inp).result = (analyze_book_image inp2).result := by
  have key : ∀ i, analysisFails i = true →
      (analyze_book_image i).result = none ∧ (analyze_book_image i).loggedError = true := by
    rintro ⟨dec, resp⟩ hi
    cases dec with
    | false => simp [analyze_book_image]
    | true =>
      cases resp with
      | none => simp [analyze_book_image]
      | some raw =>
        simp only [analysisFails, Bool.not_true, Bool.false_or] at hi
        rw [Bool.or_eq_true] at hi
        cases hi with
        | inl hb =>
          have hb' : '\x7b' ∉ cleanup raw := by
            intro hmem
            rw [decide_eq_true hmem] at hb
            exact Bool.noConfusion hb
          simp [analyze_book_image, hb']
        | inr hj =>
          have hj' : json_loads (cleanup raw) = none := by
            revert hj; cases json_loads (cleanup raw) <;> simp
          by_cases hb : '\x7b' ∈ cleanup raw
          · simp [analyze_book_image, hb, hj']
          · simp [analyze_book_image, hb]
  obtain ⟨r1, l1⟩ := key inp h
  obtain ⟨r2, _⟩ := key inp2 h2
  exact ⟨r1, l1, by rw [r1, r2]⟩

/-- Witness for C8: a decode failure and a JSON parse failure — two different
causes — both yield the sentinel with an error logged, and the caller-visible
results coincide. -/
theorem analyze_failures_collapse_witness :
    (analyze_book_image ⟨false, none⟩).result = none ∧
    (analyze_book_image ⟨false, none⟩).loggedError = true ∧
    (analyze_book_image ⟨false, none⟩).result =
      (analyze_book_image ⟨true, some (S "\x7bbroken")⟩).result :=
  analyze_failures_collapse ⟨false, none⟩ ⟨true, some (S "\x7bbroken")⟩ (by decide) (by decide)

/-- C10: the image handler's failure check is Python truthiness, not an
is-`None` test: when the model returns the valid JSON text `"\x7b\x7d"` the
analysis succeeds with the empty dict (not the sentinel), yet the handler still
answers with the fixed failure reply and never invokes the renderer; and in
general the renderer is reached only for truthy dict results. -/
theorem image_handler_truthiness_guard (inp : AnalyzeInput) (tag : List Char) :
    ((analyze_book_image ⟨true, some (S "\x7b\x7d")⟩).result = some (PyVal.obj []) ∧
      handle_image_full ⟨true, some (S "\x7b\x7d")⟩ tag =
        { reply := Except.ok (OutboundMessage.textMsg failure_reply_text),
          rendererInvoked := false }) ∧
    ((handle_image_full inp tag).rendererInvoked = true →
      ∃ d, (analyze_book_image inp).result = some d ∧ pyTruthy1 d = true) := by
  refine ⟨⟨rfl, rfl⟩, ?_⟩
  intro h
  unfold handle_image_full handle_image_message at h
  cases hres : (analyze_book_image inp).result with
  | none => rw [hres] at h; simp at h
  | some d =>
    rw [hres] at h
    by_cases ht : pyTruthy1 d = false
    · simp only [ht] at h
      simp at h
    · refine ⟨d, rfl, ?_⟩
      revert ht; cases pyTruthy1 d <;> simp

/-- Witness for C10: on the spec's successful sample the renderer is invoked,
and the analysis result is indeed a truthy dict. -/
theorem image_handler_truthiness_guard_witness :
    ∃ d, (analyze_book_image ⟨true, some sampleModelOutput⟩).result = some d ∧
      pyTruthy1 d = true :=
  (image_handler_truthiness_guard ⟨true, some sampleModelOutput⟩
    AMAZON_ASSOCIATE_TAG_default).2 rfl

/-- C9: `create_flex_message` is a pure deterministic mapping: its output
depends only on the four fields it reads (`search_keyword`, `title`,
`catchphrase`, `description`) and the affiliate tag; two records agreeing on
those lookups — equal records in particular — produce identical card
documents, and no state is carried between invocations (the embedding is a
function). -/
theorem create_flex_message_deterministic (d1 d2 : PyVal) (tag : List Char)
    (hkw : dictGet d1 (S "search_keyword") = dictGet d2 (S "search_keyword"))
    (ht : dictGet d1 (S "title") = dictGet d2 (S "title"))
    (hc : dictGet d1 (S "catchphrase") = dictGet d2 (S "catchphrase"))
    (hd : dictGet d1 (S "description") = dictGet d2 (S "description")) :
    create_flex_message d1 tag = create_flex_message d2 tag := by
  unfold create_flex_message
  rw [hkw, ht, hc, hd]

/-! ### Supporting lemmas for the purchase-URL claim -/

theorem char_toNat_lt_unicode (c : Char) : c.toNat < 1114112 := by
  have h := c.valid
  have e : c.toNat = c.val.toNat := rfl
  rcases h with h | h <;> omega

theorem char_toNat_inj {c1 c2 : Char} (h : c1.toNat = c2.toNat) : c1 = c2 :=
  Char.eq_of_val_eq (UInt32.ext h)

theorem isSafeByte_lt (b : Nat) (h : isSafeByte b = true) : b < 128 := by
  unfold isSafeByte at h
  simp only [Bool.or_eq_true, Bool.and_eq_true, decide_eq_true_eq, beq_iff_eq] at h
  omega

theorem safe_char_facts : ∀ b : Nat, b < 128 → isSafeByte b = true →
    ((Char.ofNat b).toNat = b ∧ Char.ofNat b ≠ '%' ∧ Char.ofNat b ≠ '&' ∧
      Char.ofNat b ≠ '=' ∧ Char.ofNat b ≠ '?') := by decide

theorem hexDigitChar_facts : ∀ n : Nat, n < 16 →
    (hexCharVal (hexDigitChar n) = some n ∧ hexDigitChar n ≠ '%' ∧ hexDigitChar n ≠ '&' ∧
      hexDigitChar n ≠ '=' ∧ hexDigitChar n ≠ '?') := by decide

theorem utf8Nat_lt_256 (n : Nat) (h : n < 1114112) : ∀ b ∈ utf8Nat n, b < 256 := by
  intro b hb
  unfold utf8Nat at hb
  split_ifs at hb with h1 h2 h3
  · simp only [List.mem_singleton] at hb
    omega
  · simp only [List.mem_cons, List.not_mem_nil, or_false] at hb
    rcases hb with rfl | rfl <;> omega
  · simp only [List.mem_cons, List.not_mem_nil, or_false] at hb
    rcases hb with rfl | rfl | rfl <;> omega
  · simp only [List.mem_cons, List.not_mem_nil, or_false] at hb
    rcases hb with rfl | rfl | rfl | rfl <;> omega

theorem utf8Encode_lt_256 (s : List Char) : ∀ b ∈ utf8Encode s, b < 256 := by
  intro b hb
  unfold utf8Encode at hb
  rw [List.mem_flatten] at hb
  obtain ⟨l, hl, hbl⟩ := hb
  rw [List.mem_map] at hl
  obtain ⟨c, -, rfl⟩ := hl
  exact utf8Nat_lt_256 _ (char_toNat_lt_unicode c) b hbl

theorem unquote_cons_of_ne (c : Char) (l : List Char) (hc : ¬ c = '%') :
    unquote_to_bytes (c :: l) = c.toNat :: unquote_to_bytes l := by
  match l with
  | [] => rfl
  | [c1] => rfl
  | c1 :: c2 :: r => simp only [unquote_to_bytes, if_neg hc]

theorem unquote_percent_cons (c1 c2 : Char) (r : List Char) (v1 v2 : Nat)
    (h1 : hexCharVal c1 = some v1) (h2 : hexCharVal c2 = some v2) :
    unquote_to_bytes ('%' :: c1 :: c2 :: r) = (16 * v1 + v2) :: unquote_to_bytes r := by
  simp [unquote_to_bytes, h1, h2]

theorem unquote_to_bytes_quote (bs : List Nat) (h : ∀ b ∈ bs, b < 256) :
    unquote_to_bytes (quote bs) = bs := by
  induction bs with
  | nil => rfl
  | cons b rest ih =>
    have hb : b < 256 := h b (List.mem_cons_self b rest)
    have hrest : ∀ x ∈ rest, x < 256 := fun x hx => h x (List.mem_cons_of_mem _ hx)
    have hq : quote (b :: rest) = quoteByte b ++ quote rest := by
      simp [quote]
    rw [hq]
    by_cases hs : isSafeByte b = true
    · have h128 := isSafeByte_lt b hs
      obtain ⟨htn, hne, -, -, -⟩ := safe_char_facts b h128 hs
      have hqb : quoteByte b = [Char.ofNat b] := by simp [quoteByte, hs]
      rw [hqb, List.singleton_append, unquote_cons_of_ne _ _ hne, htn, ih hrest]
    · have hs' : isSafeByte b = false := by
        revert hs; cases isSafeByte b <;> simp
      have hqb : quoteByte b = ['%', hexDigitChar (b / 16), hexDigitChar (b % 16)] := by
        simp [quoteByte, hs']
      have hdiv : b / 16 < 16 := by omega
      have hmod : b % 16 < 16 := by omega
      obtain ⟨hv1, -, -, -, -⟩ := hexDigitChar_facts (b / 16) hdiv
      obtain ⟨hv2, -, -, -, -⟩ := hexDigitChar_facts (b % 16) hmod
      rw [hqb]
      simp only [List.cons_append, List.nil_append]
      rw [unquote_percent_cons _ _ _ _ _ hv1 hv2, ih hrest]
      have hbval : 16 * (b / 16) + b % 16 = b := by omega
      rw [hbval]

theorem quoteByte_no_specials (b : Nat) (hb : b < 256) :
    '&' ∉ quoteByte b ∧ '=' ∉ quoteByte b ∧ '?' ∉ quoteByte b := by
  by_cases hs : isSafeByte b = true
  · have h128 := isSafeByte_lt b hs
    obtain ⟨-, -, h1, h2, h3⟩ := safe_char_facts b h128 hs
    have hqb : quoteByte b = [Char.ofNat b] := by simp [quoteByte, hs]
    rw [hqb]
    refine ⟨?_, ?_, ?_⟩ <;> intro hm <;>
      rw [List.mem_singleton] at hm
    · exact h1 hm.symm
    · exact h2 hm.symm
    · exact h3 hm.symm
  · have hs' : isSafeByte b = false := by
      revert hs; cases isSafeByte b <;> simp
    have hqb : quoteByte b = ['%', hexDigitChar (b / 16), hexDigitChar (b % 16)] := by
      simp [quoteByte, hs']
    have hdiv : b / 16 < 16 := by omega
    have hmod : b % 16 < 16 := by omega
    obtain ⟨-, -, a1, a2, a3⟩ := hexDigitChar_facts (b / 16) hdiv
    obtain ⟨-, -, b1, b2, b3⟩ := hexDigitChar_facts (b % 16) hmod
    rw [hqb]
    refine ⟨?_, ?_, ?_⟩ <;> intro hm <;>
      simp only [List.mem_cons, List.not_mem_nil, or_false] at hm
    · rcases hm with e | e | e
      · exact absurd e (by decide)
      · exact a1 e.symm
      · exact b1 e.symm
    · rcases hm with e | e | e
      · exact absurd e (by decide)
      · exact a2 e.symm
      · exact b2 e.symm
    · rcases hm with e | e | e
      · exact absurd e (by decide)
      · exact a3 e.symm
      · exact b3 e.symm

theorem quote_no_specials (bs : List Nat) (h : ∀ b ∈ bs, b < 256) :
    '&' ∉ quote bs ∧ '=' ∉ quote bs ∧ '?' ∉ quote bs := by
  induction bs with
  | nil => refine ⟨?_, ?_, ?_⟩ <;> intro hm <;> exact List.not_mem_nil _ hm
  | cons b rest ih =>
    have hb : b < 256 := h b (List.mem_cons_self b rest)
    obtain ⟨q1, q2, q3⟩ := quoteByte_no_specials b hb
    obtain ⟨r1, r2, r3⟩ := ih (fun x hx => h x (List.mem_cons_of_mem _ hx))
    have hq : quote (b :: rest) = quoteByte b ++ quote rest := by simp [quote]
    rw [hq]
    refine ⟨?_, ?_, ?_⟩ <;> intro hm <;> rcases List.mem_append.mp hm with hm' | hm'
    · exact q1 hm'
    · exact r1 hm'
    · exact q2 hm'
    · exact r2 hm'
    · exact q3 hm'
    · exact r3 hm'

theorem splitFirst_append_cons (c : Char) (l1 l2 : List Char) (h : c ∉ l1) :
    splitFirst c (l1 ++ c :: l2) = some (l1, l2) := by
  induction l1 with
  | nil => simp [splitFirst]
  | cons x xs ih =>
    have hx : ¬ x = c := fun e => h (e ▸ List.mem_cons_self x xs)
    have h' : c ∉ xs := fun hm => h (List.mem_cons_of_mem _ hm)
    simp [splitFirst, hx, ih h']

theorem splitAll_no_sep (c : Char) (l : List Char) (h : c ∉ l) : splitAll c l = [l] := by
  induction l with
  | nil => rfl
  | cons x xs ih =>
    have hx : ¬ x = c := fun e => h (e ▸ List.mem_cons_self x xs)
    have h' : c ∉ xs := fun hm => h (List.mem_cons_of_mem _ hm)
    simp [splitAll, hx, ih h']

theorem splitAll_append_cons (c : Char) (l1 l2 : List Char) (h : c ∉ l1) :
    splitAll c (l1 ++ c :: l2) = l1 :: splitAll c l2 := by
  induction l1 with
  | nil => simp [splitAll]
  | cons x xs ih =>
    have hx : ¬ x = c := fun e => h (e ▸ List.mem_cons_self x xs)
    have h' : c ∉ xs := fun hm => h (List.mem_cons_of_mem _ hm)
    rw [List.cons_append]
    simp [splitAll, hx, ih h']

theorem getParam_amazon_url (kw tag : List Char) (htag : '&' ∉ tag) :
    getParam (amazon_url_of kw tag) (S "tag") = some tag ∧
    getParam (amazon_url_of kw tag) (S "k") = some (quote (utf8Encode kw)) := by
  obtain ⟨hamp, heq, hqm⟩ := quote_no_specials (utf8Encode kw) (utf8Encode_lt_256 kw)
  have hurl : amazon_url_of kw tag =
      S "https://www.amazon.co.jp/s" ++
        '?' :: (('k' :: '=' :: quote (utf8Encode kw)) ++ '&' :: (S "tag" ++ '=' :: tag)) := by
    unfold amazon_url_of
    have e1 : S "https://www.amazon.co.jp/s?k=" =
        S "https://www.amazon.co.jp/s" ++ ['?', 'k', '='] := by decide
    have e2 : S "&tag=" = '&' :: (S "tag" ++ ['=']) := by decide
    rw [e1, e2]
    simp [List.append_assoc]
  have h1 : splitFirst '?' (amazon_url_of kw tag) =
      some (S "https://www.amazon.co.jp/s",
        ('k' :: '=' :: quote (utf8Encode kw)) ++ '&' :: (S "tag" ++ '=' :: tag)) := by
    rw [hurl]
    exact splitFirst_append_cons _ _ _ (by decide)
  have hnk : '&' ∉ 'k' :: '=' :: quote (utf8Encode kw) := by
    intro hm
    rcases List.mem_cons.mp hm with e | hm2
    · exact absurd e (by decide)
    rcases List.mem_cons.mp hm2 with e | hm3
    · exact absurd e (by decide)
    exact hamp hm3
  have hnt : '&' ∉ S "tag" ++ '=' :: tag := by
    intro hm
    rcases List.mem_append.mp hm with hm' | hm'
    · exact absurd hm' (by decide)
    rcases List.mem_cons.mp hm' with e | hm2
    · exact absurd e (by decide)
    exact htag hm2
  have h2 : splitAll '&'
      ((('k' :: '=' :: quote (utf8Encode kw)) ++ '&' :: (S "tag" ++ '=' :: tag))) =
      ('k' :: '=' :: quote (utf8Encode kw)) :: [S "tag" ++ '=' :: tag] := by
    rw [splitAll_append_cons _ _ _ hnk, splitAll_no_sep _ _ hnt]
  have h4 : splitFirst '=' ('k' :: '=' :: quote (utf8Encode kw)) =
      some (['k'], quote (utf8Encode kw)) :=
    splitFirst_append_cons '=' ['k'] (quote (utf8Encode kw)) (by decide)
  have h5 : splitFirst '=' (S "tag" ++ '=' :: tag) = some (S "tag", tag) :=
    splitFirst_append_cons '=' (S "tag") tag (by decide)
  constructor
  · simp only [getParam, h1, h2, findParam, h4, h5]
    rw [if_neg (by decide : ¬ (['k'] : List Char) = S "tag")]
    simp
  · simp only [getParam, h1, h2, findParam, h4, h5]
    rw [if_pos (by decide : (['k'] : List Char) = S "k")]

/-- The UTF-8 encoding of one code point is never empty. -/
theorem utf8Nat_ne_nil (n : Nat) : utf8Nat n ≠ [] := by
  unfold utf8Nat
  split_ifs <;> simp

theorem utf8Nat_length_lenHead (n b : Nat) (t : List Nat) (h : utf8Nat n = b :: t) :
    (utf8Nat n).length = lenHead b := by
  unfold utf8Nat at h ⊢
  split_ifs at h with h1 h2 h3
  · rw [if_pos h1]
    injection h with hb ht
    simp only [lenHead, List.length_singleton]
    rw [if_pos (by omega)]
  · rw [if_neg h1, if_pos h2]
    injection h with hb ht
    simp only [lenHead, List.length_cons, List.length_singleton]
    rw [if_neg (by omega), if_pos (by omega)]
    rfl
  · rw [if_neg h1, if_neg h2, if_pos h3]
    injection h with hb ht
    simp only [lenHead, List.length_cons, List.length_singleton]
    rw [if_neg (by omega), if_neg (by omega), if_pos (by omega)]
    rfl
  · rw [if_neg h1, if_neg h2, if_neg h3]
    injection h with hb ht
    simp only [lenHead, List.length_cons, List.length_singleton]
    rw [if_neg (by omega), if_neg (by omega), if_neg (by omega)]
    rfl

theorem utf8Nat_inj (m n : Nat) (h : utf8Nat m = utf8Nat n) : m = n := by
  unfold utf8Nat at h
  split_ifs at h <;> simp_all <;> omega

theorem utf8Encode_inj (s1 : List Char) : ∀ s2, utf8Encode s1 = utf8Encode s2 → s1 = s2 := by
  induction s1 with
  | nil =>
    intro s2 h
    cases s2 with
    | nil => rfl
    | cons c t =>
      exfalso
      simp only [utf8Encode, List.map_nil, List.flatten_nil, List.map_cons,
        List.flatten_cons] at h
      rcases List.append_eq_nil.mp h.symm with ⟨hn, -⟩
      exact utf8Nat_ne_nil _ hn
  | cons c t ih =>
    intro s2 h
    cases s2 with
    | nil =>
      exfalso
      simp only [utf8Encode, List.map_nil, List.flatten_nil, List.map_cons,
        List.flatten_cons] at h
      rcases List.append_eq_nil.mp h with ⟨hn, -⟩
      exact utf8Nat_ne_nil _ hn
    | cons c2 t2 =>
      simp only [utf8Encode, List.map_cons, List.flatten_cons] at h
      have hlen : (utf8Nat c.toNat).length = (utf8Nat c2.toNat).length := by
        cases hu : utf8Nat c.toNat with
        | nil => exact absurd hu (utf8Nat_ne_nil _)
        | cons b r =>
          cases hu2 : utf8Nat c2.toNat with
          | nil => exact absurd hu2 (utf8Nat_ne_nil _)
          | cons b2 r2 =>
            have hb : b = b2 := by
              rw [hu, hu2] at h
              simp only [List.cons_append, List.cons.injEq] at h
              exact h.1
            rw [← hu, ← hu2, utf8Nat_length_lenHead _ b r hu,
              utf8Nat_length_lenHead _ b2 r2 hu2, hb]
      obtain ⟨hhead, htail⟩ := List.append_inj h hlen
      have hc : c = c2 := char_toNat_inj (utf8Nat_inj _ _ hhead)
      rw [hc, ih t2 (by simpa [utf8Encode] using htail)]

theorem footer_button_uri_bubble (t c d : PyVal) (url : List Char) :
    footer_button_uri (bubble_json t c d url) = some url := rfl

theorem create_flex_message_ok (data : PyVal) (tag kw : List Char) (tv cv dv : PyVal)
    (hkw : dictGet data (S "search_keyword") = Except.ok (PyVal.str kw))
    (ht : dictGet data (S "title") = Except.ok tv)
    (hc : dictGet data (S "catchphrase") = Except.ok cv)
    (hd : dictGet data (S "description") = Except.ok dv) :
    create_flex_message data tag = Except.ok
      { alt_text := S "【提案】" ++ pyStr tv,
        contents := bubble_json tv cv dv (amazon_url_of kw tag) } := by
  unfold create_flex_message
  rw [hkw, ht, hc, hd]
  rfl

/-- C1: for every AnalysisResult dict with all required fields present (as
strings), `create_flex_message` succeeds and the purchase URL it puts behind
the footer button has `tag` query parameter exactly the configured affiliate
tag, and a `k` query parameter whose percent-decoding is exactly the UTF-8
encoding of the original `search_keyword` — and UTF-8 encoding is injective,
so the keyword is recovered exactly.  (The concrete `k=T%20A` instance is in
the witness.) -/
theorem create_flex_purchase_url_tag_and_keyword (data : PyVal) (tag kw : List Char)
    (tv cv dv : PyVal)
    (hkw : dictGet data (S "search_keyword") = Except.ok (PyVal.str kw))
    (ht : dictGet data (S "title") = Except.ok tv)
    (hc : dictGet data (S "catchphrase") = Except.ok cv)
    (hd : dictGet data (S "description") = Except.ok dv)
    (htag : '&' ∉ tag) :
    ∃ f, create_flex_message data tag = Except.ok f ∧
      footer_button_uri f.contents = some (amazon_url_of kw tag) ∧
      getParam (amazon_url_of kw tag) (S "tag") = some tag ∧
      ∃ kenc, getParam (amazon_url_of kw tag) (S "k") = some kenc ∧
        unquote_to_bytes kenc = utf8Encode kw ∧
        ∀ kw2, utf8Encode kw2 = utf8Encode kw → kw2 = kw := by
  obtain ⟨hg1, hg2⟩ := getParam_amazon_url kw tag htag
  refine ⟨_, create_flex_message_ok data tag kw tv cv dv hkw ht hc hd, ?_, hg1, ?_⟩
  · exact footer_button_uri_bubble tv cv dv (amazon_url_of kw tag)
  · exact ⟨quote (utf8Encode kw), hg2,
      unquote_to_bytes_quote _ (utf8Encode_lt_256 kw),
      fun kw2 h2 => utf8Encode_inj kw2 kw h2⟩

/-- Witness for C1 at the spec's scenario: `search_keyword = "T A"` with the
default affiliate tag; the URL is exactly
`https://www.amazon.co.jp/s?k=T%20A&tag=dummy-tag-22` and contains `k=T%20A`. -/
theorem create_flex_purchase_url_tag_and_keyword_witness :
    (∃ f, create_flex_message sampleBookData AMAZON_ASSOCIATE_TAG_default = Except.ok f ∧
      footer_button_uri f.contents =
        some (amazon_url_of (S "T A") AMAZON_ASSOCIATE_TAG_default) ∧
      getParam (amazon_url_of (S "T A") AMAZON_ASSOCIATE_TAG_default) (S "tag") =
        some AMAZON_ASSOCIATE_TAG_default ∧
      ∃ kenc, getParam (amazon_url_of (S "T A") AMAZON_ASSOCIATE_TAG_default) (S "k") =
          some kenc ∧
        unquote_to_bytes kenc = utf8Encode (S "T A") ∧
        ∀ kw2, utf8Encode kw2 = utf8Encode (S "T A") → kw2 = S "T A") ∧
    hasOcc (S "k=T%20A") (amazon_url_of (S "T A") AMAZON_ASSOCIATE_TAG_default) = true ∧
    amazon_url_of (S "T A") AMAZON_ASSOCIATE_TAG_default =
      S "https://www.amazon.co.jp/s?k=T%20A&tag=dummy-tag-22" :=
  ⟨create_flex_purchase_url_tag_and_keyword sampleBookData AMAZON_ASSOCIATE_TAG_default
      (S "T A") (PyVal.str (S "T")) (PyVal.str (S "C")) (PyVal.str (S "D"))
      rfl rfl rfl rfl (by decide),
    by decide, by decide⟩

/-- Witness for C9: two concrete records that differ in the unread `author`
field render to the same document. -/
theorem create_flex_message_deterministic_witness :
    create_flex_message sampleBookData AMAZON_ASSOCIATE_TAG_default =
      create_flex_message sampleBookDataAuthorB AMAZON_ASSOCIATE_TAG_default :=
  create_flex_message_deterministic sampleBookData sampleBookDataAuthorB
    AMAZON_ASSOCIATE_TAG_default rfl rfl rfl rfl

/-! ### Supporting lemmas for cleanup idempotence -/

theorem removeAllGo_skip (p : List Char) :
    ∀ (l : List Char) (n : Nat), removeAllGo p n l = removeAll p (l.drop n) := by
  intro l
  induction l with
  | nil => intro n; cases n <;> rfl
  | cons x rest ih =>
    intro n
    cases n with
    | zero => rw [List.drop_zero]; rfl
    | succ m =>
      show removeAllGo p m rest = removeAll p ((x :: rest).drop (m + 1))
      rw [List.drop_succ_cons]
      exact ih m

theorem removeAll_cons_match (p : List Char) (x : Char) (rest : List Char)
    (hp : 0 < p.length) (hm : startsWith p (x :: rest) = true) :
    removeAll p (x :: rest) = removeAll p ((x :: rest).drop p.length) := by
  show removeAllGo p 0 (x :: rest) = _
  rw [removeAllGo]
  rw [if_pos (by simp [hm, hp])]
  rw [removeAllGo_skip]
  have hp1 : p.length = (p.length - 1) + 1 := by omega
  conv_rhs => rw [hp1, List.drop_succ_cons]

theorem removeAll_cons_nomatch (p : List Char) (x : Char) (rest : List Char)
    (hm : startsWith p (x :: rest) = false) :
    removeAll p (x :: rest) = x :: removeAll p rest := by
  show removeAllGo p 0 (x :: rest) = _
  rw [removeAllGo]
  rw [if_neg (by simp [hm])]
  rfl

theorem hasOcc_cons (p : List Char) (x : Char) (rest : List Char) :
    hasOcc p (x :: rest) = (startsWith p (x :: rest) || hasOcc p rest) := rfl

theorem removeAll_of_no_occ (p l : List Char) (h : hasOcc p l = false) :
    removeAll p l = l := by
  induction l with
  | nil => rfl
  | cons x rest ih =>
    rw [hasOcc_cons, Bool.or_eq_false_iff] at h
    rw [removeAll_cons_nomatch p x rest h.1, ih h.2]

theorem startsWith_ex (p : List Char) :
    ∀ xs, startsWith p xs = true → ∃ t, xs = p ++ t := by
  induction p with
  | nil => intro xs _; exact ⟨xs, rfl⟩
  | cons a ps ih =>
    intro xs h
    cases xs with
    | nil => exact absurd h (by simp [startsWith])
    | cons x rest =>
      rw [startsWith, Bool.and_eq_true, decide_eq_true_eq] at h
      obtain ⟨t, ht⟩ := ih rest h.2
      exact ⟨t, by rw [List.cons_append, ← h.1, ← ht]⟩

theorem startsWith_longer (p q : List Char) :
    ∀ xs, startsWith (p ++ q) xs = true → startsWith p xs = true := by
  induction p with
  | nil => intro xs _; rfl
  | cons a ps ih =>
    intro xs h
    cases xs with
    | nil => exact absurd h (by simp [startsWith])
    | cons x rest =>
      rw [List.cons_append, startsWith, Bool.and_eq_true] at h
      rw [startsWith, Bool.and_eq_true]
      exact ⟨h.1, ih rest h.2⟩

theorem no_occ_pj_of_no_occ_p3 (l : List Char) (h : hasOcc (S "```") l = false) :
    hasOcc (S "```json") l = false := by
  induction l with
  | nil => decide
  | cons x rest ih =>
    rw [hasOcc_cons, Bool.or_eq_false_iff] at h
    rw [hasOcc_cons, Bool.or_eq_false_iff]
    refine ⟨?_, ih h.2⟩
    cases hs : startsWith (S "```json") (x :: rest) with
    | false => rfl
    | true =>
      exfalso
      have hsp : startsWith (S "```") (x :: rest) = true :=
        startsWith_longer (S "```") (S "json") (x :: rest)
          (by rw [show S "```" ++ S "json" = S "```json" from by decide]; exact hs)
      rw [h.1] at hsp
      exact Bool.noConfusion hsp

theorem leadT_tick_cons (l : List Char) : leadT (tick :: l) = leadT l + 1 := by
  simp [leadT]

theorem leadT_cons_of_ne (x : Char) (l : List Char) (hx : ¬ x = tick) :
    leadT (x :: l) = 0 := by
  simp [leadT, hx]

theorem startsWith_repTick (k : Nat) :
    ∀ l : List Char, startsWith (List.replicate k tick) l = true ↔ k ≤ leadT l := by
  induction k with
  | zero =>
    intro l
    constructor
    · intro _; exact Nat.zero_le _
    · intro _; rfl
  | succ m ih =>
    intro l
    cases l with
    | nil =>
      simp only [List.replicate, startsWith]
      constructor
      · intro h; exact Bool.noConfusion h
      · intro h; exact absurd h (by simp [leadT])
    | cons x rest =>
      by_cases hx : x = tick
      · subst hx
        rw [leadT_tick_cons]
        simp only [List.replicate, startsWith, Bool.and_eq_true, decide_eq_true_eq]
        constructor
        · intro h; have := (ih rest).mp h.2; omega
        · intro h; exact ⟨trivial, (ih rest).mpr (by omega)⟩
      · rw [leadT_cons_of_ne x rest hx]
        simp only [List.replicate, startsWith, Bool.and_eq_true, decide_eq_true_eq]
        constructor
        · intro h; exact absurd h.1.symm hx
        · intro h; omega

theorem rep3_eq_fence : List.replicate 3 tick = S "```" := by decide

theorem removeAll_p3_inv :
    ∀ (N : Nat) (l : List Char), l.length ≤ N →
      leadT (removeAll (S "```") l) ≤ min 2 (leadT l) ∧
      hasOcc (S "```") (removeAll (S "```") l) = false := by
  intro N
  induction N with
  | zero =>
    intro l hl
    have h0 : l = [] := List.length_eq_zero.mp (Nat.le_zero.mp hl)
    subst h0
    exact ⟨by decide, by decide⟩
  | succ N ih =>
    intro l hl
    cases l with
    | nil => exact ⟨by decide, by decide⟩
    | cons x rest =>
      have hrl : rest.length ≤ N := by
        simp only [List.length_cons] at hl; omega
      cases hm : startsWith (S "```") (x :: rest) with
      | true =>
        obtain ⟨t, ht⟩ := startsWith_ex (S "```") (x :: rest) hm
        rw [removeAll_cons_match _ _ _ (by decide) hm]
        have hdrop : (x :: rest).drop (S "```").length = t := by
          rw [ht, List.drop_left]
        rw [hdrop]
        have hlt : t.length ≤ N := by
          have hlen : (x :: rest).length = (S "```").length + t.length := by
            rw [ht, List.length_append]
          simp only [List.length_cons] at hlen hl
          have h3 : (S "```").length = 3 := by decide
          omega
        obtain ⟨ihl, ihocc⟩ := ih t hlt
        refine ⟨?_, ihocc⟩
        have h3 : 3 ≤ leadT (x :: rest) :=
          (startsWith_repTick 3 (x :: rest)).mp (by rw [rep3_eq_fence]; exact hm)
        omega
      | false =>
        rw [removeAll_cons_nomatch _ _ _ hm]
        obtain ⟨ihl, ihocc⟩ := ih rest hrl
        by_cases hx : x = tick
        · subst hx
          have hnot3 : ¬ 3 ≤ leadT (tick :: rest) := by
            intro hge
            have hs := (startsWith_repTick 3 (tick :: rest)).mpr hge
            rw [rep3_eq_fence, hm] at hs
            exact Bool.noConfusion hs
          have hlr : leadT rest ≤ 1 := by
            rw [leadT_tick_cons] at hnot3; omega
          have hout : leadT (removeAll (S "```") rest) ≤ 1 := by omega
          constructor
          · rw [leadT_tick_cons, leadT_tick_cons]
            omega
          · rw [hasOcc_cons]
            have hsw : startsWith (S "```") (tick :: removeAll (S "```") rest) = false := by
              cases hs : startsWith (S "```") (tick :: removeAll (S "```") rest) with
              | false => rfl
              | true =>
                exfalso
                have hge := (startsWith_repTick 3 _).mp (by rw [rep3_eq_fence]; exact hs)
                rw [leadT_tick_cons] at hge
                omega
            rw [hsw, ihocc]
            rfl
        · constructor
          · rw [leadT_cons_of_ne _ _ hx, leadT_cons_of_ne _ _ hx]
            omega
          · rw [hasOcc_cons]
            have hsw : startsWith (S "```") (x :: removeAll (S "```") rest) = false := by
              have htx : ¬ tick = x := fun e => hx e.symm
              rw [show S "```" = tick :: S "``" from by decide]
              simp [startsWith, htx]
            rw [hsw, ihocc]
            rfl

theorem removeAll_p3_no_occ (l : List Char) :
    hasOcc (S "```") (removeAll (S "```") l) = false :=
  (removeAll_p3_inv l.length l le_rfl).2

theorem pyStrip_decomp (l : List Char) :
    l = l.takeWhile isPySpace ++ (pyStrip l ++
      ((l.dropWhile isPySpace).reverse.takeWhile isPySpace).reverse) := by
  have hmid : l.dropWhile isPySpace =
      pyStrip l ++ ((l.dropWhile isPySpace).reverse.takeWhile isPySpace).reverse := by
    have h := List.takeWhile_append_dropWhile (p := isPySpace)
      (l := (l.dropWhile isPySpace).reverse)
    calc l.dropWhile isPySpace
        = ((l.dropWhile isPySpace).reverse).reverse := (List.reverse_reverse _).symm
      _ = (((l.dropWhile isPySpace).reverse.takeWhile isPySpace) ++
            ((l.dropWhile isPySpace).reverse.dropWhile isPySpace)).reverse := by rw [h]
      _ = ((l.dropWhile isPySpace).reverse.dropWhile isPySpace).reverse ++
            ((l.dropWhile isPySpace).reverse.takeWhile isPySpace).reverse :=
          List.reverse_append _ _
      _ = pyStrip l ++ ((l.dropWhile isPySpace).reverse.takeWhile isPySpace).reverse := rfl
  calc l = l.takeWhile isPySpace ++ l.dropWhile isPySpace :=
        (List.takeWhile_append_dropWhile (p := isPySpace) (l := l)).symm
    _ = l.takeWhile isPySpace ++ (pyStrip l ++
          ((l.dropWhile isPySpace).reverse.takeWhile isPySpace).reverse) := by rw [← hmid]

theorem startsWith_extend (p : List Char) :
    ∀ (t b : List Char), startsWith p t = true → startsWith p (t ++ b) = true := by
  induction p with
  | nil => intro t b _; rfl
  | cons a ps ih =>
    intro t b h
    cases t with
    | nil => exact absurd h (by simp [startsWith])
    | cons x rest =>
      rw [startsWith, Bool.and_eq_true] at h
      rw [List.cons_append, startsWith, Bool.and_eq_true]
      exact ⟨h.1, ih rest b h.2⟩

theorem hasOcc_nil_pat : ∀ b : List Char, hasOcc [] b = true := by
  intro b
  cases b <;> rfl

theorem hasOcc_append_right (p : List Char) :
    ∀ (t b : List Char), hasOcc p t = true → hasOcc p (t ++ b) = true := by
  intro t
  induction t with
  | nil =>
    intro b h
    have hp : p = [] := by
      cases p with
      | nil => rfl
      | cons a ps => exact absurd h (by simp [hasOcc, startsWith])
    subst hp
    exact hasOcc_nil_pat b
  | cons x rest ih =>
    intro b h
    rw [hasOcc_cons, Bool.or_eq_true] at h
    rw [List.cons_append, hasOcc_cons, Bool.or_eq_true]
    cases h with
    | inl hs => exact Or.inl (startsWith_extend p (x :: rest) b hs)
    | inr ho => exact Or.inr (ih b ho)

theorem hasOcc_append_left (p : List Char) :
    ∀ (a t : List Char), hasOcc p t = true → hasOcc p (a ++ t) = true := by
  intro a
  induction a with
  | nil => intro t h; exact h
  | cons x xs ih =>
    intro t h
    rw [List.cons_append, hasOcc_cons, Bool.or_eq_true]
    exact Or.inr (ih t h)

theorem no_occ_of_middle (p a t b : List Char) (h : hasOcc p (a ++ (t ++ b)) = false) :
    hasOcc p t = false := by
  cases ho : hasOcc p t with
  | false => rfl
  | true =>
    exfalso
    have hmem := hasOcc_append_left p a (t ++ b) (hasOcc_append_right p t b ho)
    rw [h] at hmem
    exact Bool.noConfusion hmem

theorem cleanup_no_p3 (raw : List Char) : hasOcc (S "```") (cleanup raw) = false := by
  have hocc := removeAll_p3_no_occ (removeAll (S "```json") raw)
  have hdec := pyStrip_decomp (removeAll (S "```") (removeAll (S "```json") raw))
  unfold cleanup
  exact no_occ_of_middle _ _ _ _ (by rw [← hdec]; exact hocc)

theorem dropWhile_head_false (q : Char → Bool) (l : List Char) :
    l.dropWhile q = [] ∨ ∃ y t, l.dropWhile q = y :: t ∧ q y = false := by
  induction l with
  | nil => exact Or.inl rfl
  | cons x xs ih =>
    by_cases hq : q x = true
    · rw [List.dropWhile_cons, if_pos hq]
      exact ih
    · have hq' : q x = false := by revert hq; cases q x <;> simp
      rw [List.dropWhile_cons, if_neg (by rw [hq']; exact Bool.noConfusion)]
      exact Or.inr ⟨x, xs, rfl, hq'⟩

theorem dropWhile_self_of_head (q : Char → Bool) (l : List Char)
    (h : ∀ y t, l = y :: t → q y = false) : l.dropWhile q = l := by
  cases l with
  | nil => rfl
  | cons y t =>
    rw [List.dropWhile_cons, if_neg (by rw [h y t rfl]; exact Bool.noConfusion)]

theorem dropWhile_idem (q : Char → Bool) (l : List Char) :
    (l.dropWhile q).dropWhile q = l.dropWhile q := by
  rcases dropWhile_head_false q l with h | ⟨y, t, he, hq⟩
  · rw [h]; rfl
  · rw [he, List.dropWhile_cons, if_neg (by rw [hq]; exact Bool.noConfusion)]

theorem pyStrip_idem (l : List Char) : pyStrip (pyStrip l) = pyStrip l := by
  have h1 : (pyStrip l).dropWhile isPySpace = pyStrip l := by
    apply dropWhile_self_of_head
    intro y t hyt
    have hmdec : l.dropWhile isPySpace =
        pyStrip l ++ ((l.dropWhile isPySpace).reverse.takeWhile isPySpace).reverse := by
      have h := List.takeWhile_append_dropWhile (p := isPySpace)
        (l := (l.dropWhile isPySpace).reverse)
      calc l.dropWhile isPySpace
          = ((l.dropWhile isPySpace).reverse).reverse := (List.reverse_reverse _).symm
        _ = (((l.dropWhile isPySpace).reverse.takeWhile isPySpace) ++
              ((l.dropWhile isPySpace).reverse.dropWhile isPySpace)).reverse := by rw [h]
        _ = ((l.dropWhile isPySpace).reverse.dropWhile isPySpace).reverse ++
              ((l.dropWhile isPySpace).reverse.takeWhile isPySpace).reverse :=
            List.reverse_append _ _
        _ = pyStrip l ++ ((l.dropWhile isPySpace).reverse.takeWhile isPySpace).reverse := rfl
    rcases dropWhile_head_false isPySpace l with h0 | ⟨y', t', he, hq⟩
    · rw [h0, hyt] at hmdec
      exact absurd hmdec.symm (by simp)
    · rw [hmdec, hyt] at he
      rw [List.cons_append] at he
      injection he with he1 he2
      rw [← he1] at hq
      exact hq
  show (((pyStrip l).dropWhile isPySpace).reverse.dropWhile isPySpace).reverse = pyStrip l
  rw [h1]
  show (((((l.dropWhile isPySpace).reverse).dropWhile isPySpace).reverse).reverse.dropWhile
    isPySpace).reverse = pyStrip l
  rw [List.reverse_reverse, dropWhile_idem]
  rfl

/-- An already-cleaned string — no triple-backtick occurrence, no surrounding
whitespace — is untouched by both replaces and by strip. -/
theorem cleanup_fixes (t : List Char) (h3 : hasOcc (S "```") t = false)
    (hstrip : pyStrip t = t) : cleanup t = t := by
  unfold cleanup
  rw [removeAll_of_no_occ _ _ (no_occ_pj_of_no_occ_p3 t h3), removeAll_of_no_occ _ _ h3,
    hstrip]

/-- C7: the model-output cleanup (removing every `` ```json `` and `` ``` ``
occurrence and stripping surrounding whitespace) is idempotent — cleaning an
already-cleaned string changes nothing — and any string with no
triple-backtick occurrence and no surrounding whitespace (an already-clean
JSON string in particular) is a fixed point of it. -/
theorem cleanup_idempotent (xs t : List Char) (h3 : hasOcc (S "```") t = false)
    (hstrip : pyStrip t = t) :
    cleanup (cleanup xs) = cleanup xs ∧ cleanup t = t := by
  refine ⟨cleanup_fixes _ (cleanup_no_p3 xs) ?_, cleanup_fixes t h3 hstrip⟩
  show pyStrip (cleanup xs) = cleanup xs
  unfold cleanup
  exact pyStrip_idem _

/-- Witness for C7: cleaning the fenced sample twice equals cleaning it once,
and the already-clean JSON text is a fixed point. -/
theorem cleanup_idempotent_witness :
    cleanup (cleanup sampleModelOutput) = cleanup sampleModelOutput ∧
    cleanup (S "\x7b\"title\":\"T\"\x7d") = S "\x7b\"title\":\"T\"\x7d" :=
  cleanup_idempotent sampleModelOutput (S "\x7b\"title\":\"T\"\x7d") (by decide) (by decide)

end Recbook
